import Mathlib

/-!
Verification of the foxpanel-swiftflow kanban board core: the stage-transition
validation and drag handler (`src/pages/Board.tsx`), the column layout state,
the selection toggle, the lead-collection fetch, the search filter, and the
bulk soft-delete / restore pair (`src/components/kanban/BulkActionsBar.tsx`,
`RestoreLeadsDialog`). TypeScript state updates are embedded as pure functions
from the old state (plus the outcome of each remote call) to the new state
together with the list of remote requests issued.
-/

/-- The seven pipeline stages (`LeadStatus` in `Board.tsx`). -/
inductive LeadStatus where
  | leads
  | photos_received
  | mockup_done
  | price_shared
  | payment_done
  | production
  | delivered
deriving DecidableEq, Repr

/-- Product types of order items (`ProductType` in `Board.tsx`). -/
inductive ProductType where
  | fp_pro
  | fw
  | ft
deriving DecidableEq, Repr

/-- Payment types (`PaymentType` in `Board.tsx`). -/
inductive PaymentType where
  | full_payment
  | partial_payment
  | cod
deriving DecidableEq, Repr

/-- Delivery methods (`DeliveryMethod` in `Board.tsx`). -/
inductive DeliveryMethod where
  | courier
  | store_collection
deriving DecidableEq, Repr

/-- One order line of a lead (`LeadItem` in `Board.tsx`). Prices are integer
fils to avoid floating point; the claims never compute with them. -/
structure LeadItem where
  id : String
  lead_id : String
  product_type : ProductType
  size : String
  quantity : Nat
  price_aed : Option Int
  created_at : String
  updated_at : String
deriving DecidableEq, Repr

/-- A lead record (`Lead` in `Board.tsx`). Timestamps are opaque strings. -/
structure Lead where
  id : String
  order_id : String
  customer_name : String
  customer_email : Option String
  customer_phone : String
  customer_address : Option String
  status : LeadStatus
  assigned_to : Option String
  created_by : String
  last_status_change : String
  notes : Option String
  created_at : String
  updated_at : String
  payment_type : Option PaymentType
  delivery_method : Option DeliveryMethod
  lead_items : List LeadItem
deriving DecidableEq, Repr

/-- Result of the transition validation: allowed, or rejected with the
user-facing reason string. -/
inductive TransValidation where
  | allowed
  | rejected (reason : String)
deriving DecidableEq, Repr

/-- The validation rule inlined in `handleDragEnd` (`Board.tsx` lines
207-211): moving to production or delivered with `payment_type` unset is
rejected with the toast message; everything else passes. -/
def canTransition (lead : Lead) (newStatus : LeadStatus) : TransValidation :=
  if (newStatus == .production || newStatus == .delivered) && lead.payment_type.isNone then
    .rejected ("Please set payment type before moving to "
      ++ (if newStatus == .production then "Production" else "Delivered"))
  else
    .allowed

/-- C1: the validation rejects exactly when the target is production or
delivered and `payment_type` is unset; in every other case (whatever
`delivery_method` holds) the transition is allowed. -/
theorem canTransition_allowed_iff (l : Lead) (t : LeadStatus) :
    canTransition l t = .allowed ↔
      ¬((t = .production ∨ t = .delivered) ∧ l.payment_type = none) := by
  unfold canTransition
  cases t <;> cases h : l.payment_type <;> simp [h]

/-- A remote request issued by the board controller; the drag handler only
ever issues a status-only update (`.update({ status }).eq("id", leadId)`). -/
inductive RemoteRequest where
  | updateStatus (id : String) (status : LeadStatus)
deriving DecidableEq, Repr

/-- Outcome of `handleDragEnd`: the new in-memory collection and the remote
requests issued. -/
structure DragEndResult where
  leads : List Lead
  requests : List RemoteRequest
deriving DecidableEq, Repr

/-- The wire-level status identifiers (`validStatuses` in `handleDragEnd`),
as the partial decoding a drop-target id undergoes. -/
def statusFromId (s : String) : Option LeadStatus :=
  if s = "leads" then some .leads
  else if s = "photos_received" then some .photos_received
  else if s = "mockup_done" then some .mockup_done
  else if s = "price_shared" then some .price_shared
  else if s = "payment_done" then some .payment_done
  else if s = "production" then some .production
  else if s = "delivered" then some .delivered
  else none

/-- Resolution of the drop target (`Board.tsx` lines 190-202): a column id is
used directly; otherwise the target is a lead id and the dragged lead adopts
that lead's status ("drop near" semantics). -/
def resolveTarget (leads : List Lead) (overId : String) : Option LeadStatus :=
  match statusFromId overId with
  | some st => some st
  | none => (leads.find? (fun l => l.id == overId)).map (fun l => l.status)

/-- The drag-and-drop handler (`handleDragEnd`, `Board.tsx` lines 181-232)
up to the optimistic update and the issued remote update. The error-path
resync (`fetchLeads` on remote failure) happens after this returns and is
modelled separately by `fetchLeads`. -/
def handleDragEnd (leads : List Lead) (activeId : String) (over : Option String) :
    DragEndResult :=
  match over with
  | none => ⟨leads, []⟩
  | some overId =>
    match resolveTarget leads overId with
    | none => ⟨leads, []⟩
    | some newStatus =>
      match leads.find? (fun l => l.id == activeId) with
      | none => ⟨leads, []⟩
      | some lead =>
        if lead.status == newStatus then ⟨leads, []⟩
        else
          match canTransition lead newStatus with
          | .rejected _ => ⟨leads, []⟩
          | .allowed =>
            ⟨leads.map (fun l => if l.id == activeId then { l with status := newStatus } else l),
             [.updateStatus activeId newStatus]⟩

/-- C3: when the resolved target equals the dragged lead's current status, or
the validation rejects, `handleDragEnd` leaves the collection unchanged and
issues no remote request. -/
theorem handleDragEnd_noop (leads : List Lead) (activeId overId : String)
    (lead : Lead) (t : LeadStatus)
    (hres : resolveTarget leads overId = some t)
    (hfind : leads.find? (fun l => l.id == activeId) = some lead)
    (hstop : t = lead.status ∨ canTransition lead t ≠ .allowed) :
    handleDragEnd leads activeId (some overId) = ⟨leads, []⟩ := by
  simp only [handleDragEnd, hres, hfind]
  rcases hstop with h | h
  · subst h
    rw [if_pos (by simp)]
  · by_cases heq : lead.status == t
    · simp [heq]
    · cases hv : canTransition lead t with
      | allowed => exact absurd hv h
      | rejected r => simp [heq, hv]

/-- Equality of two lead records on every field except `status`. -/
def agreesExceptStatus (x y : Lead) : Prop :=
  y.id = x.id ∧ y.order_id = x.order_id ∧ y.customer_name = x.customer_name ∧
  y.customer_email = x.customer_email ∧ y.customer_phone = x.customer_phone ∧
  y.customer_address = x.customer_address ∧ y.assigned_to = x.assigned_to ∧
  y.created_by = x.created_by ∧ y.last_status_change = x.last_status_change ∧
  y.notes = x.notes ∧ y.created_at = x.created_at ∧ y.updated_at = x.updated_at ∧
  y.payment_type = x.payment_type ∧ y.delivery_method = x.delivery_method ∧
  y.lead_items = x.lead_items

/-- C4: on a validated transition to a different status, the optimistic
update touches only the dragged lead's `status` field (all other leads and
all other fields are unchanged, and the collection keeps its length), and
the one remote request carries only the status field for that lead. -/
theorem handleDragEnd_frame (leads : List Lead) (activeId overId : String)
    (lead : Lead) (t : LeadStatus)
    (hres : resolveTarget leads overId = some t)
    (hfind : leads.find? (fun l => l.id == activeId) = some lead)
    (hne : (lead.status == t) = false)
    (hok : canTransition lead t = .allowed) :
    (handleDragEnd leads activeId (some overId)).requests
        = [RemoteRequest.updateStatus activeId t]
    ∧ (handleDragEnd leads activeId (some overId)).leads.length = leads.length
    ∧ ∀ (i : Nat) (hi : i < leads.length)
        (hi2 : i < (handleDragEnd leads activeId (some overId)).leads.length),
        (((leads.get ⟨i, hi⟩).id == activeId) = false →
          (handleDragEnd leads activeId (some overId)).leads.get ⟨i, hi2⟩
            = leads.get ⟨i, hi⟩)
        ∧ (((leads.get ⟨i, hi⟩).id == activeId) = true →
            agreesExceptStatus (leads.get ⟨i, hi⟩)
              ((handleDragEnd leads activeId (some overId)).leads.get ⟨i, hi2⟩)
            ∧ ((handleDragEnd leads activeId (some overId)).leads.get ⟨i, hi2⟩).status = t) := by
  have key : handleDragEnd leads activeId (some overId)
      = ⟨leads.map (fun l => if l.id == activeId then { l with status := t } else l),
         [RemoteRequest.updateStatus activeId t]⟩ := by
    simp only [handleDragEnd, hres, hfind, hne, hok]
    rfl
  refine ⟨by rw [key], by rw [key]; exact leads.length_map _, ?_⟩
  intro i hi hi2
  by_cases hid : (leads.get ⟨i, hi⟩).id = activeId
  · refine ⟨fun hfalse => absurd hid (by simpa using hfalse), fun _ => ?_⟩
    simp only [key, List.get_eq_getElem, List.getElem_map]
    have hid2 : leads[i].id = activeId := by simpa using hid
    constructor
    · unfold agreesExceptStatus
      simp [hid2]
    · simp [hid2]
  · refine ⟨fun _ => ?_, fun htrue => absurd (by simpa using htrue) hid⟩
    simp only [key, List.get_eq_getElem, List.getElem_map]
    have hid2 : ¬ leads[i].id = activeId := by simpa using hid
    simp [hid2]

/-- A sample lead with payment type set, used to exercise the theorems. -/
def sampleLead : Lead :=
  { id := "L1", order_id := "ORD-1", customer_name := "Alice",
    customer_email := none, customer_phone := "0501234567",
    customer_address := none, status := .payment_done, assigned_to := none,
    created_by := "U1", last_status_change := "t0", notes := none,
    created_at := "t0", updated_at := "t0", payment_type := some .cod,
    delivery_method := none, lead_items := [] }

/-- A sample lead with no payment type, used to exercise the theorems. -/
def sampleLead2 : Lead :=
  { id := "L2", order_id := "ORD-2", customer_name := "Bob",
    customer_email := some "b@x.io", customer_phone := "0559876543",
    customer_address := some "Dubai", status := .leads, assigned_to := none,
    created_by := "U1", last_status_change := "t1", notes := some "n",
    created_at := "t1", updated_at := "t1", payment_type := none,
    delivery_method := some .courier, lead_items := [] }

/-- Witness for C3: dragging a lead without payment type to production is
rejected and changes nothing. -/
theorem handleDragEnd_noop_witness :
    handleDragEnd [sampleLead2] "L2" (some "production") = ⟨[sampleLead2], []⟩ :=
  handleDragEnd_noop [sampleLead2] "L2" "production" sampleLead2 .production
    (by decide) (by decide) (Or.inr (by decide))

/-- Witness for C4: a validated drag to production issues the status-only
request and keeps the collection's length. -/
theorem handleDragEnd_frame_witness :
    (handleDragEnd [sampleLead, sampleLead2] "L1" (some "production")).requests
        = [RemoteRequest.updateStatus "L1" .production]
    ∧ (handleDragEnd [sampleLead, sampleLead2] "L1" (some "production")).leads.length = 2 :=
  ⟨(handleDragEnd_frame [sampleLead, sampleLead2] "L1" "production" sampleLead .production
      (by decide) (by decide) (by decide) (by decide)).1,
   (handleDragEnd_frame [sampleLead, sampleLead2] "L1" "production" sampleLead .production
      (by decide) (by decide) (by decide) (by decide)).2.1⟩

/-- Column view state of the board (`minimizedColumns : Set<string>` and
`maximizedColumn : string | null` in `Board.tsx`). The JS `Set` is embedded
as a duplicate-free insertion-ordered list. -/
structure LayoutState where
  minimized : List String
  maximized : Option String
deriving DecidableEq, Repr

/-- JS `new Set(prev).add(id)`: append unless already present. -/
def setAdd (s : List String) (id : String) : List String :=
  if s.contains id then s else s ++ [id]

/-- JS `newSet.delete(id)`: drop the element. -/
def setRemove (s : List String) (id : String) : List String :=
  s.filter (fun x => x != id)

/-- `handleMinimize` (`Board.tsx` lines 253-258): clear the maximized
reference when it points at this column, then add it to the minimized set. -/
def handleMinimize (s : LayoutState) (id : String) : LayoutState :=
  { minimized := setAdd s.minimized id,
    maximized := if s.maximized = some id then none else s.maximized }

/-- `handleMaximize` (`Board.tsx` lines 260-267): remove the column from the
minimized set and make it the single maximized column. -/
def handleMaximize (s : LayoutState) (id : String) : LayoutState :=
  { minimized := setRemove s.minimized id, maximized := some id }

/-- `handleNormalView` (`Board.tsx` lines 269-276): remove the column from
the minimized set and clear the maximized reference. -/
def handleNormalView (s : LayoutState) (id : String) : LayoutState :=
  { minimized := setRemove s.minimized id, maximized := none }

/-- One user action on the column layout. -/
inductive LayoutOp where
  | minimize (id : String)
  | maximize (id : String)
  | normalView (id : String)
deriving DecidableEq, Repr

/-- Apply one layout action. -/
def applyLayoutOp (s : LayoutState) : LayoutOp → LayoutState
  | .minimize id => handleMinimize s id
  | .maximize id => handleMaximize s id
  | .normalView id => handleNormalView s id

/-- Initial layout state (`new Set()` and `null`). -/
def initialLayout : LayoutState := ⟨[], none⟩

/-- Apply a sequence of layout actions from left to right. -/
def applyLayoutOps (s : LayoutState) (ops : List LayoutOp) : LayoutState :=
  ops.foldl applyLayoutOp s

/-- The maximized column is never also minimized. -/
def layoutConsistent (s : LayoutState) : Prop :=
  ∀ c, s.maximized = some c → c ∉ s.minimized

theorem applyLayoutOp_consistent (s : LayoutState) (op : LayoutOp)
    (h : layoutConsistent s) : layoutConsistent (applyLayoutOp s op) := by
  cases op with
  | minimize id =>
    intro c hc
    simp only [applyLayoutOp, handleMinimize] at hc
    by_cases hm : s.maximized = some id
    · simp [hm] at hc
    · rw [if_neg hm] at hc
      have hne : c ≠ id := by
        intro hcid
        exact hm (hcid ▸ hc)
      have hnotin := h c hc
      simp only [applyLayoutOp, handleMinimize, setAdd]
      split
      · exact hnotin
      · simp only [List.mem_append, List.mem_singleton]
        rintro (hin | heq)
        · exact hnotin hin
        · exact hne heq
  | maximize id =>
    intro c hc
    simp only [applyLayoutOp, handleMaximize, Option.some.injEq] at hc
    subst hc
    simp [applyLayoutOp, handleMaximize, setRemove, List.mem_filter]
  | normalView id =>
    intro c hc
    simp [applyLayoutOp, handleNormalView] at hc

theorem applyLayoutOps_consistent (ops : List LayoutOp) (s : LayoutState)
    (h : layoutConsistent s) : layoutConsistent (applyLayoutOps s ops) := by
  induction ops generalizing s with
  | nil => exact h
  | cons op rest ih =>
    exact ih (applyLayoutOp s op) (applyLayoutOp_consistent s op h)

/-- C8: in any state reached from the initial layout by a sequence of
minimize/maximize/restore-to-normal actions, at most one column is
maximized, the maximized column is not minimized, and minimizing the
currently maximized column clears the maximized reference. -/
theorem layout_invariant (ops : List LayoutOp) (c : String)
    (h : (applyLayoutOps initialLayout ops).maximized = some c) :
    (∀ d, (applyLayoutOps initialLayout ops).maximized = some d → d = c)
    ∧ c ∉ (applyLayoutOps initialLayout ops).minimized
    ∧ (handleMinimize (applyLayoutOps initialLayout ops) c).maximized = none := by
  refine ⟨?_, ?_, ?_⟩
  · intro d hd
    rw [h] at hd
    exact (Option.some.injEq _ _ ▸ hd).symm
  · exact applyLayoutOps_consistent ops initialLayout (by intro c hc; simp [initialLayout] at hc) c h
  · simp [handleMinimize, h]

/-- Witness for C8: after maximizing column "a" (with "a" previously
minimized), "a" is maximized, unique, and not minimized. -/
theorem layout_invariant_witness :
    "a" ∉ (applyLayoutOps initialLayout
        [LayoutOp.minimize "a", LayoutOp.maximize "a"]).minimized
    ∧ (handleMinimize (applyLayoutOps initialLayout
        [LayoutOp.minimize "a", LayoutOp.maximize "a"]) "a").maximized = none :=
  ⟨(layout_invariant [LayoutOp.minimize "a", LayoutOp.maximize "a"] "a" (by decide)).2.1,
   (layout_invariant [LayoutOp.minimize "a", LayoutOp.maximize "a"] "a" (by decide)).2.2⟩

/-- `handleLeadSelect` (`Board.tsx` lines 278-285): selecting appends the id
to the selection array, deselecting filters out every copy of the id. -/
def handleLeadSelect (prev : List String) (leadId : String) (selected : Bool) :
    List String :=
  if selected then prev ++ [leadId] else prev.filter (fun id => id != leadId)

/-- Counterexample to C6: selecting an already-selected lead appends a
duplicate, so applying the toggle twice does not equal applying it once. -/
theorem handleLeadSelect_not_idempotent :
    handleLeadSelect (handleLeadSelect [] "L1" true) "L1" true
      ≠ handleLeadSelect [] "L1" true := by
  decide

/-- C6 amended: the toggle is idempotent up to set membership (the ids
selected are the same after one or two applications), and deselection is
idempotent on the nose; but selecting an already-selected lead duplicates
the id in the underlying array. -/
theorem handleLeadSelect_idem_amended (prev : List String) (leadId x : String)
    (b : Bool) :
    (x ∈ handleLeadSelect (handleLeadSelect prev leadId b) leadId b ↔
      x ∈ handleLeadSelect prev leadId b)
    ∧ handleLeadSelect (handleLeadSelect prev leadId false) leadId false
        = handleLeadSelect prev leadId false := by
  constructor
  · cases b with
    | false => simp [handleLeadSelect, List.mem_filter]
    | true =>
      simp only [handleLeadSelect, if_pos]
      simp [List.mem_append]
  · simp [handleLeadSelect, List.filter_filter]

/-- `fetchLeads` (`Board.tsx` lines 139-154) as a state transformer: the
remote select either fails (`failed = true`, in-memory collection kept) or
returns `data`, which replaces the collection (`setLeads(data || [])`). -/
def fetchLeads (current : List Lead) (failed : Bool) (data : Option (List Lead)) :
    List Lead :=
  if failed then current else data.getD []

/-- C9: a failed load leaves the in-memory collection unchanged; a
successful load replaces it wholesale by the fetched data. -/
theorem fetchLeads_spec (current : List Lead) (failed : Bool)
    (data : Option (List Lead)) :
    (failed = true → fetchLeads current failed data = current)
    ∧ (failed = false → ∀ d, data = some d → fetchLeads current failed data = d) := by
  constructor
  · intro h
    simp [fetchLeads, h]
  · intro h d hd
    simp [fetchLeads, h, hd]

/-- Witness for C9: a failed fetch keeps the old list, a successful one
installs the new list. -/
theorem fetchLeads_spec_witness :
    fetchLeads [sampleLead] true (some [sampleLead2]) = [sampleLead]
    ∧ fetchLeads [sampleLead] false (some [sampleLead2]) = [sampleLead2] :=
  ⟨(fetchLeads_spec [sampleLead] true (some [sampleLead2])).1 rfl,
   (fetchLeads_spec [sampleLead] false (some [sampleLead2])).2 rfl [sampleLead2] rfl⟩

/-- JS `String.prototype.toLowerCase` restricted to the characters the data
holds, embedded as character-wise lowering. -/
def strToLower (s : String) : String := String.mk (s.data.map Char.toLower)

/-- Does the list start with the given pattern? -/
def charsStartWith : List Char → List Char → Bool
  | [], _ => true
  | _ :: _, [] => false
  | a :: as, b :: bs => a == b && charsStartWith as bs

/-- Does the list contain the pattern as a contiguous run? -/
def charsContain (n : List Char) : List Char → Bool
  | [] => charsStartWith n []
  | b :: bs => charsStartWith n (b :: bs) || charsContain n bs

/-- JS `hay.includes(needle)`: contiguous substring test. -/
def strIncludes (hay needle : String) : Bool :=
  charsContain needle.data hay.data

/-- The search predicate inside `filteredLeads` (`Board.tsx` lines 295-299):
an empty term matches everything; otherwise the lowered customer name and
order id are tested against the lowered term, while the phone is tested
against the raw term (`customer_phone.includes(searchTerm)`). -/
def matchesSearch (lead : Lead) (searchTerm : String) : Bool :=
  searchTerm == ""
  || strIncludes (strToLower lead.customer_name) (strToLower searchTerm)
  || strIncludes (strToLower lead.order_id) (strToLower searchTerm)
  || strIncludes lead.customer_phone searchTerm

/-- The search predicate as the spec words it (claim C7): case-insensitive
substring match against all three of customer name, order id and phone. -/
def matchesSearchSpec (lead : Lead) (searchTerm : String) : Bool :=
  strIncludes (strToLower lead.customer_name) (strToLower searchTerm)
  || strIncludes (strToLower lead.order_id) (strToLower searchTerm)
  || strIncludes (strToLower lead.customer_phone) (strToLower searchTerm)

/-- A lead whose phone holds an upper-case letter, separating the code's
search from the spec's case-insensitive reading of the phone match. -/
def cxLead : Lead :=
  { id := "L7", order_id := "ORD-7", customer_name := "zz",
    customer_email := none, customer_phone := "050A11",
    customer_address := none, status := .leads, assigned_to := none,
    created_by := "U1", last_status_change := "t0", notes := none,
    created_at := "t0", updated_at := "t0", payment_type := none,
    delivery_method := none, lead_items := [] }

/-- Counterexample to C7: searching "a" misses the phone "050A11" because
the code compares the phone case-sensitively, while the spec's predicate
(case-insensitive on all three fields) matches. -/
theorem matchesSearch_not_case_insensitive :
    matchesSearch cxLead "a" = false ∧ matchesSearchSpec cxLead "a" = true := by
  decide

theorem charsStartWith_iff (n : List Char) :
    ∀ h : List Char, charsStartWith n h = true ↔ ∃ rest, h = n ++ rest := by
  induction n with
  | nil =>
    intro h
    simp [charsStartWith]
  | cons a as ih =>
    intro h
    cases h with
    | nil =>
      simp [charsStartWith]
    | cons b bs =>
      simp only [charsStartWith, Bool.and_eq_true, beq_iff_eq, ih bs,
        List.cons_append, List.cons.injEq]
      constructor
      · rintro ⟨hab, rest, hr⟩
        exact ⟨rest, hab.symm, hr⟩
      · rintro ⟨rest, hba, hr⟩
        exact ⟨hba.symm, rest, hr⟩

theorem charsContain_iff (n : List Char) :
    ∀ h : List Char, charsContain n h = true ↔ ∃ p q, h = p ++ n ++ q := by
  intro h
  induction h with
  | nil =>
    simp only [charsContain, charsStartWith_iff]
    constructor
    · rintro ⟨rest, hr⟩
      exact ⟨[], rest, by simpa using hr⟩
    · rintro ⟨p, q, hpq⟩
      have h3 : p = [] ∧ n = [] ∧ q = [] := by
        simpa [List.append_assoc, List.append_eq_nil] using hpq.symm
      exact ⟨[], by simp [h3.2.1]⟩
  | cons b bs ih =>
    simp only [charsContain, Bool.or_eq_true, charsStartWith_iff, ih]
    constructor
    · rintro (⟨rest, hr⟩ | ⟨p, q, hpq⟩)
      · exact ⟨[], rest, by simpa using hr⟩
      · exact ⟨b :: p, q, by simp [hpq]⟩
    · rintro ⟨p, q, hpq⟩
      cases p with
      | nil =>
        exact Or.inl ⟨q, by simpa using hpq⟩
      | cons c cs =>
        have hpq2 : bs = cs ++ (n ++ q) := by
          have hx := hpq
          simp only [List.cons_append, List.cons.injEq, List.append_assoc] at hx
          exact hx.2
        exact Or.inr ⟨cs, q, by simpa [List.append_assoc] using hpq2⟩

/-- C7 amended: the code's search matches when the term is empty, or the
lowered term occurs contiguously in the lowered customer name or the
lowered order id, or the raw term occurs contiguously in the raw phone —
the phone comparison is case-sensitive, unlike the other two fields. -/
theorem matchesSearch_amended (lead : Lead) (term : String) :
    matchesSearch lead term = true ↔
      (term = ""
       ∨ (∃ p q, (strToLower lead.customer_name).data
            = p ++ (strToLower term).data ++ q)
       ∨ (∃ p q, (strToLower lead.order_id).data
            = p ++ (strToLower term).data ++ q)
       ∨ (∃ p q, lead.customer_phone.data = p ++ term.data ++ q)) := by
  simp only [matchesSearch, strIncludes, Bool.or_eq_true, beq_iff_eq,
    charsContain_iff, or_assoc]

/-- The `lead_data` blob stored in a `deleted_leads` row
(`BulkActionsBar.tsx` lines 56-68). It carries exactly the fields the code
lists — `payment_type`, `delivery_method` and `last_status_change` are not
among them. -/
structure LeadData where
  order_id : String
  customer_name : String
  customer_email : Option String
  customer_phone : String
  customer_address : Option String
  status : LeadStatus
  assigned_to : Option String
  created_by : String
  notes : Option String
  created_at : String
  updated_at : String
deriving DecidableEq, Repr

/-- One row inserted into `deleted_leads`; `deleted_at` and
`restore_deadline` (`now() + 30 days`) are filled in by the store's column
defaults and are irrelevant to the claims proved here. -/
structure DeletedLeadRow where
  lead_id : String
  lead_data : LeadData
  lead_items : List LeadItem
  deleted_by : String
deriving DecidableEq, Repr

/-- The snapshot built for one lead (`deletedLeadsData` map in
`handleBulkDelete`). -/
def snapshotOf (uid : String) (lead : Lead) : DeletedLeadRow :=
  { lead_id := lead.id,
    lead_data :=
      { order_id := lead.order_id, customer_name := lead.customer_name,
        customer_email := lead.customer_email,
        customer_phone := lead.customer_phone,
        customer_address := lead.customer_address, status := lead.status,
        assigned_to := lead.assigned_to, created_by := lead.created_by,
        notes := lead.notes, created_at := lead.created_at,
        updated_at := lead.updated_at },
    lead_items := lead.lead_items,
    deleted_by := uid }

/-- Observable outcome of one `handleBulkDelete` run: the snapshot rows that
ended up in `deleted_leads`, whether the delete request was issued and which
lead ids it removed, the selection afterwards, and overall success. -/
structure BulkDeleteOutcome where
  storedSnapshots : List DeletedLeadRow
  deleteIssued : Bool
  removedIds : List String
  selectionAfter : List String
  succeeded : Bool
deriving DecidableEq, Repr

/-- `handleBulkDelete` (`BulkActionsBar.tsx` lines 39-99): snapshot the
selected leads that are present in the in-memory collection into
`deleted_leads`; if that insert fails, throw (no delete happens); otherwise
delete by the full id selection (`.in("id", selectedLeads)`); only after
both succeed is the selection cleared. `insertOk`/`deleteOk` are the
outcomes of the two remote calls. -/
def handleBulkDelete (user : Option String) (leads : List Lead)
    (selectedLeads : List String) (insertOk deleteOk : Bool) :
    BulkDeleteOutcome :=
  match user with
  | none => ⟨[], false, [], selectedLeads, false⟩
  | some uid =>
    let snaps := (leads.filter (fun l => selectedLeads.contains l.id)).map (snapshotOf uid)
    if insertOk then
      if deleteOk then ⟨snaps, true, selectedLeads, [], true⟩
      else ⟨snaps, true, [], selectedLeads, false⟩
    else ⟨[], false, [], selectedLeads, false⟩

/-- C2: the delete is issued only when the snapshot insert succeeded; a
failed insert removes no lead row and aborts; and on overall success the
selection set is cleared. -/
theorem handleBulkDelete_snapshot_first (user : Option String)
    (leads : List Lead) (selectedLeads : List String) (insertOk deleteOk : Bool) :
    ((handleBulkDelete user leads selectedLeads insertOk deleteOk).deleteIssued = true →
      insertOk = true)
    ∧ (insertOk = false →
        (handleBulkDelete user leads selectedLeads insertOk deleteOk).removedIds = []
        ∧ (handleBulkDelete user leads selectedLeads insertOk deleteOk).deleteIssued = false)
    ∧ ((handleBulkDelete user leads selectedLeads insertOk deleteOk).succeeded = true →
        (handleBulkDelete user leads selectedLeads insertOk deleteOk).selectionAfter = []) := by
  cases user with
  | none => simp [handleBulkDelete]
  | some uid =>
    cases insertOk <;> cases deleteOk <;> simp [handleBulkDelete]

/-- Witness for C2: with a failing snapshot insert nothing is removed, and a
fully successful run clears the selection. -/
theorem handleBulkDelete_snapshot_first_witness :
    ((handleBulkDelete (some "U1") [sampleLead] ["L1"] false true).removedIds = []
      ∧ (handleBulkDelete (some "U1") [sampleLead] ["L1"] false true).deleteIssued = false)
    ∧ (handleBulkDelete (some "U1") [sampleLead] ["L1"] true true).selectionAfter = [] :=
  ⟨(handleBulkDelete_snapshot_first (some "U1") [sampleLead] ["L1"] false true).2.1 rfl,
   (handleBulkDelete_snapshot_first (some "U1") [sampleLead] ["L1"] true true).2.2 rfl⟩

/-- C10: snapshots cover exactly the selected ids present in the in-memory
collection, while the delete targets the whole selection; a selected id
absent from the collection is deleted without any snapshot of it. -/
theorem handleBulkDelete_unsnapshotted_delete (uid : String) (leads : List Lead)
    (selectedLeads : List String) (id : String)
    (hsel : id ∈ selectedLeads)
    (habs : ∀ l ∈ leads, l.id ≠ id) :
    (handleBulkDelete (some uid) leads selectedLeads true true).storedSnapshots
        = (leads.filter (fun l => selectedLeads.contains l.id)).map (snapshotOf uid)
    ∧ (handleBulkDelete (some uid) leads selectedLeads true true).removedIds
        = selectedLeads
    ∧ id ∈ (handleBulkDelete (some uid) leads selectedLeads true true).removedIds
    ∧ ∀ s ∈ (handleBulkDelete (some uid) leads selectedLeads true true).storedSnapshots,
        s.lead_id ≠ id := by
  refine ⟨rfl, rfl, hsel, ?_⟩
  intro s hs
  have hmem : s ∈ (leads.filter (fun l => selectedLeads.contains l.id)).map (snapshotOf uid) := hs
  rcases List.mem_map.mp hmem with ⟨l, hl, hsnap⟩
  have hlmem : l ∈ leads := (List.mem_filter.mp hl).1
  have hid : s.lead_id = l.id := by rw [← hsnap]; rfl
  rw [hid]
  exact habs l hlmem

/-- Witness for C10: id "L9" is selected but not in the collection; the
delete targets it while no stored snapshot mentions it. -/
theorem handleBulkDelete_unsnapshotted_delete_witness :
    "L9" ∈ (handleBulkDelete (some "U1") [sampleLead] ["L1", "L9"] true true).removedIds
    ∧ ∀ s ∈ (handleBulkDelete (some "U1") [sampleLead] ["L1", "L9"] true true).storedSnapshots,
        s.lead_id ≠ "L9" :=
  ⟨(handleBulkDelete_unsnapshotted_delete "U1" [sampleLead] ["L1", "L9"] "L9"
      (by decide) (by decide)).2.2.1,
   (handleBulkDelete_unsnapshotted_delete "U1" [sampleLead] ["L1", "L9"] "L9"
      (by decide) (by decide)).2.2.2⟩

/-- `handleRestore` (`RestoreLeadsDialog`): inserts `{ id: lead_id,
...lead_data }` back into `leads` and re-inserts the stored `lead_items`.
Columns the insert does not provide fall back to the store's defaults
(migration `20251111163522`/`20251111090450`): `payment_type` and
`delivery_method` become unset and `last_status_change` gets the
insert-time default `now()`, passed here as `nowTs`. -/
def restoreLead (d : DeletedLeadRow) (nowTs : String) : Lead :=
  { id := d.lead_id,
    order_id := d.lead_data.order_id,
    customer_name := d.lead_data.customer_name,
    customer_email := d.lead_data.customer_email,
    customer_phone := d.lead_data.customer_phone,
    customer_address := d.lead_data.customer_address,
    status := d.lead_data.status,
    assigned_to := d.lead_data.assigned_to,
    created_by := d.lead_data.created_by,
    last_status_change := nowTs,
    notes := d.lead_data.notes,
    created_at := d.lead_data.created_at,
    updated_at := d.lead_data.updated_at,
    payment_type := none,
    delivery_method := none,
    lead_items := d.lead_items }

/-- Counterexample to C5: restoring the snapshot of a lead whose
`payment_type` was set does not recover the lead — the snapshot never
captured that field — even when the restore timestamp is made to coincide
with the original `last_status_change`. -/
theorem restore_roundTrip_loses_fields :
    restoreLead (snapshotOf "U1" sampleLead) sampleLead.last_status_change
      ≠ sampleLead := by
  decide

/-- C5 amended: the soft-delete snapshot captures the identity, contact,
status, assignment, notes and timestamp fields together with the order
items, and restore recovers exactly those; but `payment_type` and
`delivery_method` come back unset and `last_status_change` is reset to the
restore time, so the round trip is not the identity on those three fields. -/
theorem restore_roundTrip_amended (lead : Lead) (uid nowTs : String) :
    agreesExceptStatus
        { restoreLead (snapshotOf uid lead) nowTs with
            payment_type := lead.payment_type,
            delivery_method := lead.delivery_method,
            last_status_change := lead.last_status_change }
        lead
    ∧ (restoreLead (snapshotOf uid lead) nowTs).status = lead.status
    ∧ (restoreLead (snapshotOf uid lead) nowTs).lead_items = lead.lead_items
    ∧ (restoreLead (snapshotOf uid lead) nowTs).payment_type = none
    ∧ (restoreLead (snapshotOf uid lead) nowTs).delivery_method = none
    ∧ (restoreLead (snapshotOf uid lead) nowTs).last_status_change = nowTs := by
  refine ⟨?_, rfl, rfl, rfl, rfl, rfl⟩
  unfold agreesExceptStatus restoreLead snapshotOf
  simp
